import Mathlib

/-!
Verification development for the openskills execution-context / skill-session
subsystem and its Python workspace tool helpers.

The runtime core (ExecutionContext, PermissionGuard, SkillSession,
finish_skill_session) ships as a compiled extension reached through
`OpenSkillRuntimeWrapper`; its implementation is not part of this excerpt,
only its tests are, so the core is modelled here from the specification text.
The workspace helpers (`is_path_within_workspace`, `format_bytes`,
`get_file_info_impl`, `write_file`, `read_file`) are embedded from
`src/bindings/python/openskills_tools.py`.
-/

namespace OpenSkills

/-- Modelled from the spec: error taxonomy of section 7 — `SkillNotFound`,
`PermissionDenied` (carrying skill id and tool name), `SessionAlreadyFinished`. -/
inductive RuntimeError where
  | skillNotFound (skillId : String)
  | permissionDenied (skillId : String) (toolName : String)
  | sessionAlreadyFinished
  deriving DecidableEq, Repr

/-- Modelled from the spec: an ExecutionContext node (section 3) — opaque unique
`id`, optional `parent_id`, `is_forked` flag, and an append-only ordered log of
`(kind, content)` entries. -/
structure ExecutionContext where
  ctxId : Nat
  parentId : Option Nat
  forked : Bool
  entries : List (String × String)
  deriving DecidableEq, Repr

/-- Modelled from the spec: `new()` — fresh id, no parent, not forked, empty log. -/
def ExecutionContext.new (fresh : Nat) : ExecutionContext :=
  ⟨fresh, none, false, []⟩

/-- Modelled from the spec: `fork()` — fresh id, `parent_id = parent.id`,
`is_forked = true`, `entries = []`; the parent is not mutated. -/
def ExecutionContext.fork (c : ExecutionContext) (fresh : Nat) : ExecutionContext :=
  ⟨fresh, some c.ctxId, true, []⟩

/-- Modelled from the spec: `record_output(kind, content)` appends the pair to
`entries`; no validation of `kind`. -/
def ExecutionContext.record_output (c : ExecutionContext) (kind content : String) :
    ExecutionContext :=
  ⟨c.ctxId, c.parentId, c.forked, c.entries ++ [(kind, content)]⟩

/-- Modelled from the spec: the join policy of `summarize()` is an implementation
choice; all result contents are joined in call order, newline-separated. -/
def joinResults : List String → String
  | [] => ""
  | [x] => x
  | x :: y :: xs => x ++ "\n" ++ joinResults (y :: xs)

/-- The contents of the entries whose kind is `"result"`, in call order. -/
def resultContents (entries : List (String × String)) : List String :=
  (entries.filter (fun e => e.1 == "result")).map (fun e => e.2)

/-- Modelled from the spec: `summarize()` — a single string built only from
entries whose `kind == "result"`, concatenated in call order. -/
def ExecutionContext.summarize (c : ExecutionContext) : String :=
  joinResults (resultContents c.entries)

/-- Modelled from the spec: the process-wide id allocator behind "id freshly
generated and distinct from every prior id in the process": a counter; every
previously allocated id is below the counter. -/
structure IdGen where
  nextId : Nat
  deriving DecidableEq, Repr

/-- Allocate a fresh context id and advance the generator. -/
def allocId (g : IdGen) : Nat × IdGen :=
  (g.nextId, ⟨g.nextId + 1⟩)

/-- Modelled from the spec: the skill catalog collaborator — for each skill id,
its `allowed_tools` and its fork-required flag. -/
structure SkillCatalog where
  skills : List (String × (List String × Bool))
  deriving DecidableEq, Repr

/-- Catalog lookup: `allowed_tools` and fork-required flag for a skill id. -/
def SkillCatalog.lookup (cat : SkillCatalog) (skillId : String) :
    Option (List String × Bool) :=
  (cat.skills.find? (fun e => e.1 == skillId)).map (fun e => e.2)

/-- Modelled from the spec: `PermissionGuard.check(skill_id, tool_name)` —
unknown skill fails `SkillNotFound`; an allowed tool succeeds and is added to
`permissions_used` on first use only; a disallowed tool fails
`PermissionDenied` carrying both ids and adds nothing. Returns the updated
`permissions_used` on success. -/
def guardCheck (cat : SkillCatalog) (used : List String)
    (skillId toolName : String) : Except RuntimeError (List String) :=
  match cat.lookup skillId with
  | none => .error (.skillNotFound skillId)
  | some (allowed, _) =>
      if toolName ∈ allowed then
        .ok (if toolName ∈ used then used else used ++ [toolName])
      else
        .error (.permissionDenied skillId toolName)

/-- Running a guard check as a state transformer: on failure the
`permissions_used` state is kept unchanged. -/
def runGuardCheck (cat : SkillCatalog) (used : List String)
    (skillId toolName : String) : Except RuntimeError Bool × List String :=
  match guardCheck cat used skillId toolName with
  | .ok used' => (.ok true, used')
  | .error e => (.error e, used)

/-- Modelled from the spec: a SkillSession — skill id, its ExecutionContext,
the fork decision made at start, the guard's `permissions_used`, and whether
the session has been consumed by finish. -/
structure SkillSession where
  skillId : String
  context : ExecutionContext
  forked : Bool
  permissionsUsed : List String
  finished : Bool
  deriving DecidableEq, Repr

/-- Modelled from the spec: `start_skill_session` — resolves the fork-required
flag from the catalog (`SkillNotFound` if unknown); if fork-required, creates a
root context then immediately forks it and the session wraps the forked child;
otherwise the session wraps a plain root context. -/
def start_skill_session (cat : SkillCatalog) (g : IdGen) (skillId : String) :
    Except RuntimeError (SkillSession × IdGen) :=
  match cat.lookup skillId with
  | none => .error (.skillNotFound skillId)
  | some (_, forkRequired) =>
      if forkRequired then
        let (rootFresh, g1) := allocId g
        let root := ExecutionContext.new rootFresh
        let (childFresh, g2) := allocId g1
        .ok (⟨skillId, root.fork childFresh, true, [], false⟩, g2)
      else
        let (rootFresh, g1) := allocId g
        .ok (⟨skillId, ExecutionContext.new rootFresh, false, [], false⟩, g1)

/-- Modelled from the spec: `render(tool_name, details)` — the rendering of a
tool call into log text is unspecified; tool name and details are joined. -/
def render (toolName details : String) : String :=
  toolName ++ ": " ++ details

/-- Modelled from the spec: `record_tool_call(session, tool_name, details)` —
fails `SessionAlreadyFinished` on a finished session; runs the permission
check, propagating `PermissionDenied` as a hard failure (a denied call is
never written into the log); on success records a `"toolcall"` entry. -/
def record_tool_call (cat : SkillCatalog) (s : SkillSession)
    (toolName details : String) : Except RuntimeError SkillSession :=
  if s.finished then .error .sessionAlreadyFinished
  else
    match guardCheck cat s.permissionsUsed s.skillId toolName with
    | .error e => .error e
    | .ok used' =>
        .ok ⟨s.skillId, s.context.record_output "toolcall" (render toolName details),
             s.forked, used', s.finished⟩

/-- Modelled from the spec: `record_result(session, content)` — fails
`SessionAlreadyFinished` on a finished session; otherwise records a
`"result"` entry directly (results are not permission-gated). -/
def record_result (s : SkillSession) (content : String) :
    Except RuntimeError SkillSession :=
  if s.finished then .error .sessionAlreadyFinished
  else .ok ⟨s.skillId, s.context.record_output "result" content,
            s.forked, s.permissionsUsed, s.finished⟩

/-- Modelled from the spec: the caller-visible `output` — verbatim pass-through
for non-forked sessions, `{"is_forked": true, "summary": ...}` for forked ones.
The final output payload type is abstract. -/
inductive SkillOutput (α : Type) where
  | verbatim (v : α)
  | forkedSummary (summary : String)
  deriving DecidableEq, Repr

/-- Modelled from the spec: a SessionResult — output, verbatim stdout/stderr,
and the audit list of distinct tool names actually exercised. -/
structure SessionResult (α : Type) where
  output : SkillOutput α
  stdout : String
  stderr : String
  auditPermissionsUsed : List String
  deriving DecidableEq, Repr

/-- Modelled from the spec: `finish_skill_session(session, final_output,
stdout, stderr)` — terminal transition; fails `SessionAlreadyFinished` if the
session was already consumed; a forked session's output is the context's
summary (the raw `final_output` is not surfaced), a non-forked session's
output is `final_output` verbatim; stdout/stderr verbatim; audit from the
guard. Returns the result together with the consumed session. -/
def finish_skill_session {α : Type} (s : SkillSession) (finalOutput : α)
    (stdout stderr : String) :
    Except RuntimeError (SessionResult α × SkillSession) :=
  if s.finished then .error .sessionAlreadyFinished
  else
    let out : SkillOutput α :=
      if s.forked then .forkedSummary s.context.summarize
      else .verbatim finalOutput
    .ok (⟨out, stdout, stderr, s.permissionsUsed⟩,
         ⟨s.skillId, s.context, s.forked, s.permissionsUsed, true⟩)

/-- Modelled from the spec: `check_tool_permission(skill_id, tool_name)` — the
standalone check usable without a session: true iff the tool is in the skill's
allow-list, `PermissionDenied` otherwise, `SkillNotFound` for an unknown id. -/
def check_tool_permission (cat : SkillCatalog) (skillId toolName : String) :
    Except RuntimeError Bool :=
  match cat.lookup skillId with
  | none => .error (.skillNotFound skillId)
  | some (allowed, _) =>
      if toolName ∈ allowed then .ok true
      else .error (.permissionDenied skillId toolName)

/-- A recording operation performed on a session during execution. -/
inductive Op where
  | toolCall (toolName details : String)
  | result (content : String)
  deriving DecidableEq, Repr

/-- One recording step as a state transformer: a failed recording call leaves
the session unchanged (the error propagates to the caller, no partial record). -/
def applyOp (cat : SkillCatalog) (s : SkillSession) : Op → SkillSession
  | .toolCall t d =>
      match record_tool_call cat s t d with
      | .ok s' => s'
      | .error _ => s
  | .result c =>
      match record_result s c with
      | .ok s' => s'
      | .error _ => s

/-- Running a whole trace of recording operations over a session. -/
def applyTrace (cat : SkillCatalog) (s : SkillSession) (ops : List Op) :
    SkillSession :=
  ops.foldl (applyOp cat) s

/-- The contents of the `result` operations of a trace, in order. -/
def traceResultContents : List Op → List String
  | [] => []
  | .toolCall _ _ :: ops => traceResultContents ops
  | .result c :: ops => c :: traceResultContents ops

/-!
Workspace tool helpers, embedded from
`src/bindings/python/openskills_tools.py`. Filesystem paths are modelled as
lists of name components of an already-absolute path; `Path.resolve()` is
modelled by its lexical normalisation (dropping `.` and empty components and
letting `..` remove the preceding component, staying at the root when there is
none), i.e. over a symlink-free filesystem.
-/

/-- One normalisation step of `Path.resolve()` on the next path component. -/
def resolveStep (acc : List String) (comp : String) : List String :=
  if comp == "." || comp == "" then acc
  else if comp == ".." then acc.dropLast
  else acc ++ [comp]

/-- `Path.resolve()` of an absolute path given by its components. -/
def resolvePath (p : List String) : List String :=
  p.foldl resolveStep []

/-- `resolved.is_relative_to(base)` for two resolved absolute paths: `base`'s
components are a leading segment of `resolved`'s components. -/
def leadsInto : List String → List String → Bool
  | [], _ => true
  | _ :: _, [] => false
  | a :: as, b :: bs => a == b && leadsInto as bs

/-- From `openskills_tools.is_path_within_workspace` (lines 29-71): resolve the
workspace and `workspace / relative_path`; equal resolved paths are valid;
otherwise `resolved_path.is_relative_to(resolved_workspace)` decides (the
pre-3.9 `relative_to` fallback and the string-prefix fallback are equivalent
formulations of the same containment test). -/
def is_path_within_workspace (workspace relativePath : List String) : Bool :=
  let resolvedWorkspace := resolvePath workspace
  let resolvedPath := resolvePath (workspace ++ relativePath)
  if resolvedPath == resolvedWorkspace then true
  else leadsInto resolvedWorkspace resolvedPath

/-- The workspace filesystem, keyed by resolved absolute paths. File metadata
beyond the content (`st_mtime`) is outside this model. -/
structure FS where
  files : List (List String × String)
  deriving DecidableEq, Repr

/-- Content of the file at a resolved path, if it exists. -/
def FS.lookup (fs : FS) (p : List String) : Option String :=
  (fs.files.find? (fun e => e.1 == p)).map (fun e => e.2)

/-- Store content at a resolved path, replacing any previous file there. -/
def FS.store (fs : FS) (p : List String) (content : String) : FS :=
  ⟨(p, content) :: fs.files.filter (fun e => !(e.1 == p))⟩

/-- Render a relative path the way the Python f-strings interpolate it. -/
def joinPath (p : List String) : String :=
  String.intercalate "/" p

/-- From `openskills_tools.format_bytes`: the unit table `sizes`. -/
def sizes : List String := ["Bytes", "KB", "MB", "GB"]

/-- From `openskills_tools.format_bytes` (lines 139-158): the
`while bytes_size >= k and i < len(sizes) - 1` loop, dividing by 1024 and
advancing the unit index. Python float arithmetic is modelled by exact
rationals, which agrees with it on every comparison the loop makes at these
magnitudes. -/
def fbLoop (q : ℚ) (i : Nat) : ℚ × Nat :=
  if h : 1024 ≤ q ∧ i < 3 then fbLoop (q / 1024) (i + 1) else (q, i)
  termination_by 3 - i
  decreasing_by omega

/-- From `openskills_tools.format_bytes` (lines 139-158): `0` maps to
`"0 Bytes"`; otherwise the loop picks the unit and the scaled value is
rendered followed by a space and the unit. The numeric text produced by
Python's float formatting of `round(bytes_size * 100) / 100` is abstracted as
the `render` parameter. -/
def format_bytes (render : ℚ → String) (bytesSize : Nat) : String :=
  if bytesSize = 0 then "0 Bytes"
  else
    let r := fbLoop (bytesSize : ℚ) 0
    render ((round (r.1 * 100) : ℚ) / 100) ++ " " ++ sizes.getD r.2 ""

/-- From `openskills_tools.get_mime_types` (lines 112-136): extension → MIME
type table. -/
def get_mime_types : List (String × String) :=
  [(".docx", "application/vnd.openxmlformats-officedocument.wordprocessingml.document"),
   (".xlsx", "application/vnd.openxmlformats-officedocument.spreadsheetml.sheet"),
   (".pptx", "application/vnd.openxmlformats-officedocument.presentationml.presentation"),
   (".pdf", "application/pdf"),
   (".png", "image/png"),
   (".jpg", "image/jpeg"),
   (".jpeg", "image/jpeg"),
   (".gif", "image/gif"),
   (".svg", "image/svg+xml"),
   (".txt", "text/plain"),
   (".md", "text/markdown"),
   (".json", "application/json"),
   (".html", "text/html"),
   (".css", "text/css"),
   (".js", "application/javascript"),
   (".ts", "application/typescript")]

/-- `Path.suffix.lower()` of the final path component: the part from the last
dot on, empty for a dotless or leading-dot-only name. -/
def suffixOf (p : List String) : String :=
  let name := p.getLastD ""
  let parts := name.splitOn "."
  match parts with
  | [] => ""
  | [_] => ""
  | first :: rest =>
      if first == "" && rest.length == 1 then ""
      else ("." ++ rest.getLastD "").toLower

/-- The dictionary `get_file_info_impl` returns (minus `st_mtime`, which the
filesystem model does not carry). -/
structure FileInfo where
  path : String
  fullPath : String
  size : Nat
  sizeHuman : String
  fileType : String
  extension : String
  deriving DecidableEq, Repr

/-- From `openskills_tools.get_file_info_impl` (lines 161-196): `ValueError`
when the path escapes the workspace, `FileNotFoundError` when the file does
not exist, otherwise the info dictionary. The fallback
`mimetypes.guess_type` of the Python library is modelled as returning no
guess, so unknown extensions map to `application/octet-stream`. Errors are
returned as the exception's message string. -/
def get_file_info_impl (render : ℚ → String) (fs : FS)
    (workspace path : List String) : Except String FileInfo :=
  if !(is_path_within_workspace workspace path) then
    .error ("Path " ++ joinPath path ++ " escapes workspace directory")
  else
    let full := resolvePath (workspace ++ path)
    match fs.lookup full with
    | none => .error ("File not found: " ++ joinPath path)
    | some content =>
        let ext := suffixOf full
        let size := content.utf8ByteSize
        .ok ⟨joinPath path, joinPath full, size, format_bytes render size,
             (((get_mime_types.find? (fun e => e.1 == ext)).map (fun e => e.2)).getD
               "application/octet-stream"),
             ext⟩

/-- From `openskills_tools.create_langchain_tools.write_file` (lines 374-384):
an escaping path yields an error string and nothing is written; otherwise the
content is written under the workspace and a success message returned. Returns
the message together with the resulting filesystem. -/
def write_file (fs : FS) (workspace path : List String) (content : String) :
    String × FS :=
  if !(is_path_within_workspace workspace path) then
    ("Error: Path " ++ joinPath path ++ " escapes workspace directory", fs)
  else
    ("Successfully wrote " ++ toString content.utf8ByteSize ++ " bytes to " ++
       joinPath path,
     fs.store (resolvePath (workspace ++ path)) content)

/-- From `openskills_tools.create_langchain_tools.read_file` (lines 386-396):
an escaping path yields an error string and no file content; a missing file
yields an error string; otherwise the file's content is returned. -/
def read_file (fs : FS) (workspace path : List String) : String :=
  if !(is_path_within_workspace workspace path) then
    "Error: Path " ++ joinPath path ++ " escapes workspace directory"
  else
    match fs.lookup (resolvePath (workspace ++ path)) with
    | none => "Error: File not found: " ++ joinPath path
    | some content => content

/-- Modelled from the spec: process-level forking — draw a fresh id from the
generator and fork the context with it; the parent value is not modified. -/
def forkCtx (g : IdGen) (c : ExecutionContext) : ExecutionContext × IdGen :=
  let a := allocId g
  (c.fork a.1, a.2)

/-- The skill catalog of the test scenarios: `code-review` allows
`Read`, `Grep`, `Glob`, `LS` and is fork-required; `explaining-code` allows
nothing and is not fork-required. -/
def exampleCatalog : SkillCatalog :=
  ⟨[("code-review", (["Read", "Grep", "Glob", "LS"], true)),
    ("explaining-code", ([], false))]⟩

/-- A forked mid-execution session used by concrete witnesses. -/
def exampleSession : SkillSession :=
  ⟨"code-review", ⟨1, some 0, true, []⟩, true, ["Read"], false⟩

/-!  Theorems settling the claims. -/

/-- Claim C7: for every non-forked session, `finish_skill_session` passes the
`final_output` argument through verbatim as `output`, and copies the `stdout`
and `stderr` arguments verbatim into the result. -/
theorem claim_C7_non_forked_finish_is_passthrough {α : Type} (s : SkillSession)
    (f : α) (stdout stderr : String)
    (hf : s.forked = false) (hfin : s.finished = false) :
    finish_skill_session s f stdout stderr =
      .ok (⟨.verbatim f, stdout, stderr, s.permissionsUsed⟩,
           ⟨s.skillId, s.context, s.forked, s.permissionsUsed, true⟩) := by
  simp [finish_skill_session, hf, hfin]

/-- Concrete instance of C7: the `explaining-code` scenario of the test
contract. -/
theorem claim_C7_witness :
    finish_skill_session (α := String)
      ⟨"explaining-code", .new 0, false, [], false⟩ "done"
      "stdout output" "stderr output" =
      .ok (⟨.verbatim "done", "stdout output", "stderr output", []⟩,
           ⟨"explaining-code", .new 0, false, [], true⟩) :=
  claim_C7_non_forked_finish_is_passthrough _ _ _ _ rfl rfl

/-- Claim C8: the session state machine has no transition back — every
`record_tool_call`, `record_result` or `finish_skill_session` on a finished
session fails `SessionAlreadyFinished`, and finishing a session a second time
fails `SessionAlreadyFinished`. -/
theorem claim_C8_finished_is_terminal {α : Type} (cat : SkillCatalog)
    (s : SkillSession) (t d c : String) (f f₂ : α) (out err out₂ err₂ : String) :
    (s.finished = true →
      record_tool_call cat s t d = .error .sessionAlreadyFinished ∧
      record_result s c = .error .sessionAlreadyFinished ∧
      finish_skill_session s f out err = .error .sessionAlreadyFinished) ∧
    (∀ r s', finish_skill_session s f out err = .ok (r, s') →
      record_tool_call cat s' t d = .error .sessionAlreadyFinished ∧
      record_result s' c = .error .sessionAlreadyFinished ∧
      finish_skill_session s' f₂ out₂ err₂ = .error .sessionAlreadyFinished) := by
  constructor
  · intro h
    exact ⟨by simp [record_tool_call, h], by simp [record_result, h],
           by simp [finish_skill_session, h]⟩
  · intro r s' h
    by_cases hfin : s.finished
    · simp [finish_skill_session, hfin] at h
    · simp [finish_skill_session, hfin] at h
      have hs' : s'.finished = true := by rw [← h.2]
      exact ⟨by simp [record_tool_call, hs'], by simp [record_result, hs'],
             by simp [finish_skill_session, hs']⟩

/-- Concrete instance of C8: a finished session rejects all three calls, and a
second finish of a just-finished session is rejected. -/
theorem claim_C8_witness :
    record_result ⟨"code-review", .new 0, true, [], true⟩ "late" =
      .error .sessionAlreadyFinished ∧
    finish_skill_session (α := String)
      ⟨"code-review", ⟨1, some 0, true, []⟩, true, ["Read"], true⟩ "again" "" "" =
      .error .sessionAlreadyFinished :=
  ⟨((claim_C8_finished_is_terminal (α := String) exampleCatalog
      ⟨"code-review", .new 0, true, [], true⟩ "Read" "d" "late" "x" "y"
      "" "" "" "").1 rfl).2.1,
   ((claim_C8_finished_is_terminal (α := String) exampleCatalog
      exampleSession "Read" "d" "late" "first" "again" "" "" "" "").2
      ⟨.forkedSummary exampleSession.context.summarize, "", "",
        exampleSession.permissionsUsed⟩
      ⟨"code-review", ⟨1, some 0, true, []⟩, true, ["Read"], true⟩ rfl).2.2⟩

/-- Claim C3: for a known skill, the standalone `check_tool_permission` returns
true iff the tool is in the skill's allow-list; otherwise it fails
`PermissionDenied` carrying both the skill id and the tool name, and after a
denied guard check the `permissions_used` state is unchanged, so a tool that
was absent stays absent. -/
theorem claim_C3_check_tool_permission_iff (cat : SkillCatalog)
    (skillId toolName : String) (allowed : List String) (fr : Bool)
    (used : List String) (h : cat.lookup skillId = some (allowed, fr)) :
    (check_tool_permission cat skillId toolName = .ok true ↔ toolName ∈ allowed) ∧
    (toolName ∉ allowed →
      check_tool_permission cat skillId toolName =
        .error (.permissionDenied skillId toolName) ∧
      (runGuardCheck cat used skillId toolName).2 = used ∧
      (toolName ∉ used → toolName ∉ (runGuardCheck cat used skillId toolName).2)) := by
  constructor
  · constructor
    · intro hc
      by_cases hm : toolName ∈ allowed
      · exact hm
      · simp [check_tool_permission, h, hm] at hc
    · intro hm
      simp [check_tool_permission, h, hm]
  · intro hm
    have hstate : (runGuardCheck cat used skillId toolName).2 = used := by
      simp [runGuardCheck, guardCheck, h, hm]
    refine ⟨by simp [check_tool_permission, h, hm], hstate, ?_⟩
    intro hu
    rw [hstate]
    exact hu

/-- Concrete instance of C3: the `code-review` allow-list admits `Read` and
rejects `Write`, leaving the used-permissions audit unchanged. -/
theorem claim_C3_witness :
    check_tool_permission exampleCatalog "code-review" "Read" = .ok true ∧
    check_tool_permission exampleCatalog "code-review" "Write" =
      .error (.permissionDenied "code-review" "Write") ∧
    (runGuardCheck exampleCatalog ["Read"] "code-review" "Write").2 = ["Read"] :=
  ⟨(claim_C3_check_tool_permission_iff exampleCatalog "code-review" "Read"
      ["Read", "Grep", "Glob", "LS"] true ["Read"] rfl).1.mpr (by decide),
   ((claim_C3_check_tool_permission_iff exampleCatalog "code-review" "Write"
      ["Read", "Grep", "Glob", "LS"] true ["Read"] rfl).2 (by decide)).1,
   ((claim_C3_check_tool_permission_iff exampleCatalog "code-review" "Write"
      ["Read", "Grep", "Glob", "LS"] true ["Read"] rfl).2 (by decide)).2.1⟩

/-- Claim C5: forking allocates a fresh id distinct from every prior id, the
child's `parent_id` is the parent's id, the child is marked forked and starts
with an empty log; the parent value is untouched (the embedding is
functional: `forkCtx` only reads `c`). -/
theorem claim_C5_fork_fresh_child (c : ExecutionContext) (g : IdGen)
    (prior : List Nat) (hprior : ∀ i ∈ prior, i < g.nextId) :
    (forkCtx g c).1.ctxId ∉ prior ∧
    (forkCtx g c).1.parentId = some c.ctxId ∧
    (forkCtx g c).1.forked = true ∧
    (forkCtx g c).1.entries = [] ∧
    (forkCtx g c).1.ctxId < (forkCtx g c).2.nextId := by
  refine ⟨?_, rfl, rfl, rfl, by simp [forkCtx, allocId, ExecutionContext.fork]⟩
  intro hmem
  have hlt := hprior _ hmem
  simp [forkCtx, allocId, ExecutionContext.fork] at hlt

/-- Concrete instance of C5: forking a context with a non-empty log under a
generator above all prior ids. -/
theorem claim_C5_witness :
    (forkCtx ⟨3⟩ ⟨1, none, false, [("result", "r")]⟩).1.ctxId ∉ [0, 1, 2] ∧
    (forkCtx ⟨3⟩ ⟨1, none, false, [("result", "r")]⟩).1.parentId = some 1 ∧
    (forkCtx ⟨3⟩ ⟨1, none, false, [("result", "r")]⟩).1.forked = true ∧
    (forkCtx ⟨3⟩ ⟨1, none, false, [("result", "r")]⟩).1.entries = [] ∧
    (forkCtx ⟨3⟩ ⟨1, none, false, [("result", "r")]⟩).1.ctxId <
      (forkCtx ⟨3⟩ ⟨1, none, false, [("result", "r")]⟩).2.nextId :=
  claim_C5_fork_fresh_child ⟨1, none, false, [("result", "r")]⟩ ⟨3⟩ [0, 1, 2]
    (by decide)

/-- Claim C6: `start_skill_session` follows the skill's fork-required flag — a
fork-required skill yields a session wrapping a freshly forked child (forked,
with a parent reference to the transient root), a non-fork-required skill
yields a session wrapping a plain root (not forked, no parent). -/
theorem claim_C6_start_follows_fork_metadata (cat : SkillCatalog) (g : IdGen)
    (skillId : String) (allowed : List String) (fr : Bool)
    (h : cat.lookup skillId = some (allowed, fr)) :
    ∃ s g', start_skill_session cat g skillId = .ok (s, g') ∧
      s.forked = fr ∧ s.context.forked = fr ∧
      (fr = true → s.context.parentId = some g.nextId) ∧
      (fr = false → s.context.parentId = none) := by
  cases fr with
  | false =>
      refine ⟨⟨skillId, .new g.nextId, false, [], false⟩, ⟨g.nextId + 1⟩,
        ?_, rfl, rfl, by simp, fun _ => rfl⟩
      simp [start_skill_session, h, allocId, ExecutionContext.new]
  | true =>
      refine ⟨⟨skillId, (ExecutionContext.new g.nextId).fork (g.nextId + 1),
        true, [], false⟩, ⟨g.nextId + 1 + 1⟩, ?_, rfl, rfl, fun _ => rfl, by simp⟩
      simp [start_skill_session, h, allocId, ExecutionContext.new,
        ExecutionContext.fork]

/-- Concrete instance of C6: starting the fork-required `code-review` skill
from a fresh generator. -/
theorem claim_C6_witness :
    ∃ s g', start_skill_session exampleCatalog ⟨0⟩ "code-review" = .ok (s, g') ∧
      s.forked = true ∧ s.context.forked = true ∧
      (true = true → s.context.parentId = some 0) ∧
      (true = false → s.context.parentId = none) :=
  claim_C6_start_follows_fork_metadata exampleCatalog ⟨0⟩ "code-review"
    ["Read", "Grep", "Glob", "LS"] true rfl

/-- A successful `record_tool_call` preserves every session field except the
log (one `"toolcall"` entry appended) and the used-permissions set (updated by
the guard). -/
theorem record_tool_call_ok_shape (cat : SkillCatalog) (s : SkillSession)
    (t d : String) (s' : SkillSession)
    (h : record_tool_call cat s t d = .ok s') :
    s'.skillId = s.skillId ∧ s'.forked = s.forked ∧ s'.finished = s.finished ∧
    s'.context.entries = s.context.entries ++ [("toolcall", render t d)] := by
  unfold record_tool_call at h
  rcases hfb : s.finished with _ | _
  · simp [hfb] at h
    rcases hg : guardCheck cat s.permissionsUsed s.skillId t with e | u <;>
      rw [hg] at h
    · simp at h
    · simp at h
      subst h
      exact ⟨rfl, rfl, rfl, rfl⟩
  · simp [hfb] at h

/-- Claim C4: a failed `record_tool_call` (in particular a `PermissionDenied`
one) leaves the session exactly as it was — no log entry, identical
`permissions_used` — while a successful one appends exactly one
`("toolcall", ...)` entry and leaves the rest of the session intact. -/
theorem claim_C4_denied_tool_call_leaves_state (cat : SkillCatalog)
    (s : SkillSession) (t d : String) :
    (∀ e, record_tool_call cat s t d = .error e →
      applyOp cat s (.toolCall t d) = s) ∧
    (∀ s', record_tool_call cat s t d = .ok s' →
      s'.context.entries = s.context.entries ++ [("toolcall", render t d)] ∧
      s'.skillId = s.skillId ∧ s'.forked = s.forked ∧ s'.finished = s.finished) := by
  constructor
  · intro e he
    simp [applyOp, he]
  · intro s' hs
    obtain ⟨h1, h2, h3, h4⟩ := record_tool_call_ok_shape cat s t d s' hs
    exact ⟨h4, h1, h2, h3⟩

/-- Concrete instance of C4: on `exampleSession`, `Write` is denied and the
session is unchanged; `Grep` is allowed and appends one toolcall entry. -/
theorem claim_C4_witness :
    applyOp exampleCatalog exampleSession (.toolCall "Write" "d") =
      exampleSession ∧
    (⟨"code-review", ⟨1, some 0, true, [("toolcall", render "Grep" "x")]⟩, true,
      ["Read", "Grep"], false⟩ : SkillSession).context.entries =
      exampleSession.context.entries ++ [("toolcall", render "Grep" "x")] :=
  ⟨(claim_C4_denied_tool_call_leaves_state exampleCatalog exampleSession
      "Write" "d").1 (.permissionDenied "code-review" "Write") rfl,
   ((claim_C4_denied_tool_call_leaves_state exampleCatalog exampleSession
      "Grep" "x").2
      ⟨"code-review", ⟨1, some 0, true, [("toolcall", render "Grep" "x")]⟩, true,
        ["Read", "Grep"], false⟩ rfl).1⟩

/-- Every member of a list is an infix of its newline join. -/
theorem joinResults_mem_infix :
    ∀ (l : List String) (c : String), c ∈ l →
      ∃ p q, joinResults l = p ++ c ++ q
  | [], c, h => absurd h (List.not_mem_nil c)
  | [x], c, h => by
      rcases List.mem_singleton.mp h with rfl
      exact ⟨"", "", by simp [joinResults]⟩
  | x :: y :: xs, c, h => by
      rcases List.mem_cons.mp h with rfl | h'
      · exact ⟨"", "\n" ++ joinResults (y :: xs),
          by rw [joinResults]; simp [String.append_assoc]⟩
      · obtain ⟨p, q, hp⟩ := joinResults_mem_infix (y :: xs) c h'
        exact ⟨x ++ "\n" ++ p, q,
          by rw [joinResults, hp]; simp [String.append_assoc]⟩

/-- The `"result"` projection of a log is already determined by the log with
all `"toolcall"` entries erased. -/
theorem resultContents_eq_of_filter_eq (l₁ l₂ : List (String × String))
    (h : l₁.filter (fun e => !(e.1 == "toolcall")) =
         l₂.filter (fun e => !(e.1 == "toolcall"))) :
    resultContents l₁ = resultContents l₂ := by
  have key : ∀ l : List (String × String),
      l.filter (fun e => e.1 == "result") =
      (l.filter (fun e => !(e.1 == "toolcall"))).filter
        (fun e => e.1 == "result") := by
    intro l
    rw [List.filter_filter]
    apply List.filter_congr
    intro e _
    by_cases he : e.1 = "result" <;> simp [he]
  unfold resultContents
  rw [key l₁, key l₂, h]

/-- Claim C2: `summarize()` contains every `"result"` entry's content as a
substring, and is unchanged under any change confined to the `"toolcall"`
entries (so no toolcall content can flow into it). -/
theorem claim_C2_summarize_noninterference (c₁ c₂ : ExecutionContext) :
    (∀ s, ("result", s) ∈ c₁.entries → ∃ p q, c₁.summarize = p ++ s ++ q) ∧
    (c₁.entries.filter (fun e => !(e.1 == "toolcall")) =
       c₂.entries.filter (fun e => !(e.1 == "toolcall")) →
     c₁.summarize = c₂.summarize) := by
  constructor
  · intro s hs
    apply joinResults_mem_infix
    exact List.mem_map.mpr
      ⟨("result", s), List.mem_filter.mpr ⟨hs, by simp⟩, rfl⟩
  · intro h
    unfold ExecutionContext.summarize
    rw [resultContents_eq_of_filter_eq _ _ h]

/-- Two logs used by the C2 witness: same result entries, different toolcall
entries. -/
def ctxA : ExecutionContext :=
  ⟨1, some 0, true, [("toolcall", "Read: src/lib.rs"),
                     ("result", "Final result here")]⟩

/-- Companion context for the C2 witness, with a different toolcall entry. -/
def ctxB : ExecutionContext :=
  ⟨2, none, false, [("toolcall", "Bash: rm -rf"),
                    ("result", "Final result here")]⟩

/-- Concrete instance of C2: the result content is an infix of the summary,
and swapping the toolcall entry does not change the summary. -/
theorem claim_C2_witness :
    (∃ p q, ctxA.summarize = p ++ "Final result here" ++ q) ∧
    ctxA.summarize = ctxB.summarize :=
  ⟨(claim_C2_summarize_noninterference ctxA ctxB).1 "Final result here"
     (by decide),
   (claim_C2_summarize_noninterference ctxA ctxB).2 (by decide)⟩

/-- One recording step never changes the session's id, fork flag or finished
flag. -/
theorem applyOp_preserves_flags (cat : SkillCatalog) (s : SkillSession)
    (op : Op) :
    (applyOp cat s op).skillId = s.skillId ∧
    (applyOp cat s op).forked = s.forked ∧
    (applyOp cat s op).finished = s.finished := by
  cases op with
  | toolCall t d =>
      rcases hrec : record_tool_call cat s t d with e | s'
      · simp [applyOp, hrec]
      · obtain ⟨h1, h2, h3, _⟩ := record_tool_call_ok_shape cat s t d s' hrec
        simp [applyOp, hrec, h1, h2, h3]
  | result c =>
      rcases hfb : s.finished with _ | _ <;>
        simp [applyOp, record_result, hfb]

/-- A whole trace of recording steps never changes the session's id, fork
flag or finished flag. -/
theorem applyTrace_preserves_flags (cat : SkillCatalog) (ops : List Op) :
    ∀ s : SkillSession,
      (applyTrace cat s ops).skillId = s.skillId ∧
      (applyTrace cat s ops).forked = s.forked ∧
      (applyTrace cat s ops).finished = s.finished := by
  induction ops with
  | nil => exact fun s => ⟨rfl, rfl, rfl⟩
  | cons op ops ih =>
      intro s
      have hstep := applyOp_preserves_flags cat s op
      have hrest := ih (applyOp cat s op)
      exact ⟨hrest.1.trans hstep.1, hrest.2.1.trans hstep.2.1,
             hrest.2.2.trans hstep.2.2⟩

/-- One recording step on an unfinished session extends the `"result"`
projection of the log by exactly the contents of its `result` operation (and
by nothing for a `toolCall` operation, allowed or denied). -/
theorem applyOp_resultContents (cat : SkillCatalog) (s : SkillSession)
    (op : Op) (hfin : s.finished = false) :
    resultContents (applyOp cat s op).context.entries =
      resultContents s.context.entries ++ traceResultContents [op] := by
  cases op with
  | toolCall t d =>
      rcases hrec : record_tool_call cat s t d with e | s'
      · simp [applyOp, hrec, traceResultContents]
      · obtain ⟨_, _, _, h4⟩ := record_tool_call_ok_shape cat s t d s' hrec
        simp [applyOp, hrec, h4, resultContents, List.filter_append,
          traceResultContents]
  | result c =>
      simp [applyOp, record_result, hfin, ExecutionContext.record_output,
        resultContents, List.filter_append, traceResultContents]

/-- Splitting a trace's result contents at its head operation. -/
theorem traceResultContents_cons (op : Op) (ops : List Op) :
    traceResultContents (op :: ops) =
      traceResultContents [op] ++ traceResultContents ops := by
  cases op <;> simp [traceResultContents]

/-- Running a trace over an unfinished session appends exactly the trace's
result contents to the `"result"` projection of the log. -/
theorem applyTrace_resultContents (cat : SkillCatalog) (ops : List Op) :
    ∀ s : SkillSession, s.finished = false →
      resultContents (applyTrace cat s ops).context.entries =
        resultContents s.context.entries ++ traceResultContents ops := by
  induction ops with
  | nil => simp [applyTrace, traceResultContents]
  | cons op ops ih =>
      intro s hfin
      have hfin' : (applyOp cat s op).finished = false :=
        (applyOp_preserves_flags cat s op).2.2.trans hfin
      have hstep := applyOp_resultContents cat s op hfin
      calc resultContents (applyTrace cat s (op :: ops)).context.entries
          = resultContents (applyTrace cat (applyOp cat s op) ops).context.entries :=
            rfl
        _ = resultContents (applyOp cat s op).context.entries ++
              traceResultContents ops := ih _ hfin'
        _ = (resultContents s.context.entries ++ traceResultContents [op]) ++
              traceResultContents ops := by rw [hstep]
        _ = resultContents s.context.entries ++ traceResultContents (op :: ops) := by
            rw [List.append_assoc, ← traceResultContents_cons]

/-- A session returned by `start_skill_session` is unfinished and its context
log starts empty. -/
theorem start_skill_session_ok_shape (cat : SkillCatalog) (g : IdGen)
    (skillId : String) (s : SkillSession) (g' : IdGen)
    (h : start_skill_session cat g skillId = .ok (s, g')) :
    s.finished = false ∧ s.context.entries = [] := by
  unfold start_skill_session at h
  rcases hl : cat.lookup skillId with _ | ⟨allowed, fr⟩ <;> rw [hl] at h
  · simp at h
  · cases fr <;> simp [allocId] at h <;>
      (obtain ⟨hs, _⟩ := h;
       rw [← hs];
       exact ⟨rfl, rfl⟩)

/-- Claim C1: for every session started forked, whatever recording trace ran
and whatever `final_output` is passed, `finish_skill_session` returns the
`is_forked` output carrying exactly the context's summary, which is the join
of the `record_result` contents of the trace alone — the `final_output`
argument does not occur in the output. -/
theorem claim_C1_forked_finish_hides_final_output {α : Type}
    (cat : SkillCatalog) (g : IdGen) (skillId : String) (s₀ : SkillSession)
    (g' : IdGen) (hstart : start_skill_session cat g skillId = .ok (s₀, g'))
    (hforked : s₀.forked = true) (ops : List Op) (finalOutput : α)
    (stdout stderr : String) :
    finish_skill_session (applyTrace cat s₀ ops) finalOutput stdout stderr =
      .ok (⟨.forkedSummary (joinResults (traceResultContents ops)),
            stdout, stderr, (applyTrace cat s₀ ops).permissionsUsed⟩,
           ⟨(applyTrace cat s₀ ops).skillId, (applyTrace cat s₀ ops).context,
            (applyTrace cat s₀ ops).forked,
            (applyTrace cat s₀ ops).permissionsUsed, true⟩) := by
  obtain ⟨hfin0, hents0⟩ := start_skill_session_ok_shape cat g skillId s₀ g' hstart
  have hflags := applyTrace_preserves_flags cat ops s₀
  have hforkedT : (applyTrace cat s₀ ops).forked = true := hflags.2.1.trans hforked
  have hfinT : (applyTrace cat s₀ ops).finished = false := hflags.2.2.trans hfin0
  have hsum : (applyTrace cat s₀ ops).context.summarize =
      joinResults (traceResultContents ops) := by
    unfold ExecutionContext.summarize
    rw [applyTrace_resultContents cat ops s₀ hfin0, hents0]
    simp [resultContents]
  simp [finish_skill_session, hfinT, hforkedT, hsum]

/-- Concrete instance of C1: the `code-review` scenario — one allowed tool
call, one result; the finish output is the forked summary of the result
alone, not the `final_output` argument. -/
theorem claim_C1_witness :
    finish_skill_session (α := String)
      (applyTrace exampleCatalog
        ⟨"code-review", (ExecutionContext.new 0).fork 1, true, [], false⟩
        [.toolCall "Read" "src/lib.rs", .result "Code looks good. No issues found."])
      "Code looks good." "" "" =
      .ok (⟨.forkedSummary
              (joinResults (traceResultContents
                [.toolCall "Read" "src/lib.rs",
                 .result "Code looks good. No issues found."])),
            "", "",
            (applyTrace exampleCatalog
              ⟨"code-review", (ExecutionContext.new 0).fork 1, true, [], false⟩
              [.toolCall "Read" "src/lib.rs",
               .result "Code looks good. No issues found."]).permissionsUsed⟩,
           ⟨(applyTrace exampleCatalog
              ⟨"code-review", (ExecutionContext.new 0).fork 1, true, [], false⟩
              [.toolCall "Read" "src/lib.rs",
               .result "Code looks good. No issues found."]).skillId,
            (applyTrace exampleCatalog
              ⟨"code-review", (ExecutionContext.new 0).fork 1, true, [], false⟩
              [.toolCall "Read" "src/lib.rs",
               .result "Code looks good. No issues found."]).context,
            (applyTrace exampleCatalog
              ⟨"code-review", (ExecutionContext.new 0).fork 1, true, [], false⟩
              [.toolCall "Read" "src/lib.rs",
               .result "Code looks good. No issues found."]).forked,
            (applyTrace exampleCatalog
              ⟨"code-review", (ExecutionContext.new 0).fork 1, true, [], false⟩
              [.toolCall "Read" "src/lib.rs",
               .result "Code looks good. No issues found."]).permissionsUsed,
            true⟩) :=
  claim_C1_forked_finish_hides_final_output exampleCatalog ⟨0⟩ "code-review"
    ⟨"code-review", (ExecutionContext.new 0).fork 1, true, [], false⟩ ⟨2⟩
    rfl rfl
    [.toolCall "Read" "src/lib.rs", .result "Code looks good. No issues found."]
    "Code looks good." "" ""

/-- `leadsInto base p` holds exactly when `base`'s components are a leading
segment of `p`'s. -/
theorem leadsInto_iff :
    ∀ (a b : List String), leadsInto a b = true ↔ ∃ s, b = a ++ s
  | [], b => by simp [leadsInto]
  | a :: as, [] => by simp [leadsInto]
  | a :: as, b :: bs => by
      rw [leadsInto]
      simp only [Bool.and_eq_true, beq_iff_eq, leadsInto_iff as bs]
      constructor
      · rintro ⟨rfl, s, rfl⟩
        exact ⟨s, rfl⟩
      · rintro ⟨s, hs⟩
        rw [List.cons_append] at hs
        obtain ⟨rfl, rfl⟩ := List.cons.injEq .. ▸ hs
        exact ⟨rfl, s, rfl⟩

/-- Claim C9: `is_path_within_workspace` answers true exactly when the
resolved location of `workspace / path` is the resolved workspace itself or a
location strictly inside it, and on a false answer `write_file`, `read_file`
and `get_file_info_impl` each fail with the escape error, without reading any
file and leaving the filesystem untouched. -/
theorem claim_C9_workspace_containment (fs : FS) (render : ℚ → String)
    (workspace rel : List String) (content : String) :
    (is_path_within_workspace workspace rel = true ↔
       resolvePath (workspace ++ rel) = resolvePath workspace ∨
       ∃ s, s ≠ [] ∧
         resolvePath (workspace ++ rel) = resolvePath workspace ++ s) ∧
    (is_path_within_workspace workspace rel = false →
       write_file fs workspace rel content =
         ("Error: Path " ++ joinPath rel ++ " escapes workspace directory", fs) ∧
       read_file fs workspace rel =
         "Error: Path " ++ joinPath rel ++ " escapes workspace directory" ∧
       get_file_info_impl render fs workspace rel =
         .error ("Path " ++ joinPath rel ++ " escapes workspace directory")) := by
  constructor
  · simp only [is_path_within_workspace]
    by_cases heq : resolvePath (workspace ++ rel) = resolvePath workspace
    · simp [heq]
    · rw [if_neg (by simpa using heq), leadsInto_iff]
      constructor
      · rintro ⟨s, hs⟩
        rcases eq_or_ne s [] with rfl | hne
        · rw [List.append_nil] at hs
          exact absurd hs heq
        · exact Or.inr ⟨s, hne, hs⟩
      · rintro (h | ⟨s, _, hs⟩)
        · exact absurd h heq
        · exact ⟨s, hs⟩
  · intro hfalse
    exact ⟨by simp [write_file, hfalse], by simp [read_file, hfalse],
           by simp [get_file_info_impl, hfalse]⟩

/-- Concrete instance of C9: a traversal path that climbs out of the
workspace is rejected by all three file operations and writes nothing. -/
theorem claim_C9_witness :
    write_file ⟨[(["home", "ws", "a.txt"], "kept")]⟩ ["home", "ws"]
        ["..", "..", "etc", "passwd"] "x" =
      ("Error: Path " ++ joinPath ["..", "..", "etc", "passwd"] ++
         " escapes workspace directory",
       ⟨[(["home", "ws", "a.txt"], "kept")]⟩) ∧
    read_file ⟨[(["home", "ws", "a.txt"], "kept")]⟩ ["home", "ws"]
        ["..", "..", "etc", "passwd"] =
      "Error: Path " ++ joinPath ["..", "..", "etc", "passwd"] ++
        " escapes workspace directory" ∧
    get_file_info_impl (fun _ => "") ⟨[(["home", "ws", "a.txt"], "kept")]⟩
        ["home", "ws"] ["..", "..", "etc", "passwd"] =
      .error ("Path " ++ joinPath ["..", "..", "etc", "passwd"] ++
        " escapes workspace directory") :=
  (claim_C9_workspace_containment ⟨[(["home", "ws", "a.txt"], "kept")]⟩
    (fun _ => "") ["home", "ws"] ["..", "..", "etc", "passwd"] "x").2 (by decide)

/-- The unit index of the `format_bytes` loop never exceeds 3. -/
theorem fbLoop_snd_le (q : ℚ) (i : Nat) (h : i ≤ 3) : (fbLoop q i).2 ≤ 3 := by
  unfold fbLoop
  split
  · next hg => exact fbLoop_snd_le (q / 1024) (i + 1) (by omega)
  · simpa using h
  termination_by 3 - i
  decreasing_by omega

/-- On inputs of at least `1024 ^ 3` the `format_bytes` loop divides three
times and stops at unit index 3. -/
theorem fbLoop_of_ge_gb (q : ℚ) (h : 1024 ^ 3 ≤ q) :
    fbLoop q 0 = (q / 1024 / 1024 / 1024, 3) := by
  have h1 : (1024 : ℚ) ≤ q := le_trans (by norm_num) h
  have h2 : (1024 : ℚ) ≤ q / 1024 := by
    rw [le_div_iff₀ (by norm_num : (0 : ℚ) < 1024)]
    exact le_trans (by norm_num) h
  have h3 : (1024 : ℚ) ≤ q / 1024 / 1024 := by
    rw [le_div_iff₀ (by norm_num : (0 : ℚ) < 1024),
      le_div_iff₀ (by norm_num : (0 : ℚ) < 1024)]
    exact le_trans (by norm_num) h
  have e0 : fbLoop q 0 = fbLoop (q / 1024) 1 := by
    rw [fbLoop, dif_pos ⟨h1, by norm_num⟩]
  have e1 : fbLoop (q / 1024) 1 = fbLoop (q / 1024 / 1024) 2 := by
    rw [fbLoop, dif_pos ⟨h2, by norm_num⟩]
  have e2 : fbLoop (q / 1024 / 1024) 2 = fbLoop (q / 1024 / 1024 / 1024) 3 := by
    rw [fbLoop, dif_pos ⟨h3, by norm_num⟩]
  have e3 : fbLoop (q / 1024 / 1024 / 1024) 3 = (q / 1024 / 1024 / 1024, 3) := by
    rw [fbLoop, dif_neg]
    rintro ⟨_, hc⟩
    omega
  rw [e0, e1, e2, e3]

/-- Claim C10: `format_bytes` is total on naturals — `0` renders as
`"0 Bytes"`, the loop's unit index never passes the end of the unit table, the
result always ends in one of the four units, and every size of at least
`1024 ^ 3` bytes is reported in GB. -/
theorem claim_C10_format_bytes_total (render : ℚ → String) (n : Nat) :
    format_bytes render 0 = "0 Bytes" ∧
    (fbLoop (n : ℚ) 0).2 < sizes.length ∧
    (∃ u ∈ sizes, ∃ p, format_bytes render n = p ++ u) ∧
    (1024 ^ 3 ≤ n → format_bytes render n =
       render ((round ((n : ℚ) / 1024 / 1024 / 1024 * 100) : ℚ) / 100) ++
         " " ++ "GB") := by
  have hle : (fbLoop (n : ℚ) 0).2 ≤ 3 := fbLoop_snd_le _ 0 (by omega)
  refine ⟨rfl, ?_, ?_, ?_⟩
  · simpa [sizes] using Nat.lt_succ_of_le hle
  · rcases Nat.eq_zero_or_pos n with rfl | hn
    · exact ⟨"Bytes", by simp [sizes], "0 ", by rfl⟩
    · refine ⟨sizes.getD (fbLoop (n : ℚ) 0).2 "", ?_,
        render ((round ((fbLoop (n : ℚ) 0).1 * 100) : ℚ) / 100) ++ " ", ?_⟩
      · interval_cases h : (fbLoop (n : ℚ) 0).2 <;> simp [sizes]
      · simp [format_bytes, Nat.pos_iff_ne_zero.mp hn]
  · intro hgb
    have hq : (1024 : ℚ) ^ 3 ≤ (n : ℚ) := by exact_mod_cast hgb
    have hne : n ≠ 0 := by
      intro h
      rw [h] at hgb
      omega
    simp [format_bytes, hne, fbLoop_of_ge_gb _ hq, sizes]

/-- Concrete instance of C10: zero renders as `"0 Bytes"` and `1024 ^ 3`
bytes is reported in GB. -/
theorem claim_C10_witness :
    format_bytes (fun _ => "1.0") 0 = "0 Bytes" ∧
    format_bytes (fun _ => "1.0") 1073741824 =
      (fun _ : ℚ => "1.0")
        ((round (((1073741824 : Nat) : ℚ) / 1024 / 1024 / 1024 * 100) : ℚ) / 100) ++
        " " ++ "GB" :=
  ⟨(claim_C10_format_bytes_total (fun _ => "1.0") 0).1,
   (claim_C10_format_bytes_total (fun _ => "1.0") 1073741824).2.2.2
     (by norm_num)⟩

end OpenSkills
